import Mathlib

/-
Verification of the wuid internal generator (package internal, file wuid.go).

Modelling conventions:
- Go uint64 values are Nat, with overflow made explicit as % U64 (U64 = 2^64).
- Go uint8 Section is a Nat (range facts appear as hypotheses where needed).
- The Logger interface is modelled by its presence (a Bool) plus the list of
  log messages the renewal goroutine would emit.
- The Renew callback is modelled by the outcome of one invocation
  (success, error value, or panic value); the goroutine body of Next is the
  pure function renewRun from that outcome to the emitted log messages.
- A Go panic in WithSection is modelled as Option.none (construction aborts).
-/

namespace internal

/-- Modulus of Go uint64 arithmetic. -/
def U64 : Nat := 2 ^ 64

/-- CriticalValue indicates when the low 40 bits are about to run out:
(1 << 40) * 8 / 10 in Go integer arithmetic. -/
def CriticalValue : Nat := (1 <<< 40) * 8 / 10

/-- RenewInterval indicates how often renew retries are performed. -/
def RenewInterval : Nat := 0x01FFFFFFFF

/-- The WUID generator state: Section (uint8 shard tag), N (the uint64 value),
Tag (diagnostic label) and whether a Logger is configured. -/
structure WUID where
  Section : Nat
  N : Nat
  Tag : String
  Logger : Bool

/-- NewWUID builds the generator from its zero value (Section = 0, N = 0),
records tag and logger, and applies the construction options in order. -/
def NewWUID (tag : String) (logger : Bool) (opts : List (WUID → WUID)) : WUID :=
  opts.foldl (fun w opt => opt w) { Section := 0, N := 0, Tag := tag, Logger := logger }

/-- One atomic uint64 increment: atomic.AddUint64(&w.N, 1). -/
def nextVal (v : Nat) : Nat := (v + 1) % U64

/-- Next increments N, decides whether a renewal goroutine is dispatched
(the Bool component) and returns the incremented value. -/
def Next (w : WUID) : WUID × Nat × Bool :=
  let x := nextVal w.N
  ({ w with N := x }, x,
    decide (x &&& 0xFFFFFFFFFF ≥ CriticalValue) && decide (x &&& RenewInterval = 0))

/-- The list of values returned by k successive calls to Next. -/
def nextList (w : WUID) : Nat → List Nat
  | 0 => []
  | k + 1 =>
    let r := Next w
    r.2.1 :: nextList r.1 k

/-- The generator state after k successive calls to Next. -/
def nextk (w : WUID) : Nat → WUID
  | 0 => w
  | k + 1 => (Next (nextk w k)).1

/-- Reset stores n verbatim when Section = 0, otherwise stores
n & 0x0FFFFFFFFFFFFFFF | uint64(Section) << 60 (the Go shift wraps mod 2^64). -/
def Reset (w : WUID) (n : Nat) : WUID :=
  if w.Section = 0 then { w with N := n }
  else { w with N := (n &&& 0x0FFFFFFFFFFFFFFF) ||| ((w.Section <<< 60) % U64) }

/-- VerifyH24 rejects 0 and values exceeding the allotted width:
0xFFFFFF when unsharded, 0x0FFFFF when sharded. -/
def VerifyH24 (w : WUID) (h24 : Nat) : Except String Unit :=
  if h24 = 0 then Except.error ("the h24 should not be 0. tag: " ++ w.Tag)
  else if w.Section = 0 then
    if h24 > 0xFFFFFF then
      Except.error ("the h24 should not exceed 0xFFFFFF. tag: " ++ w.Tag)
    else Except.ok ()
  else
    if h24 > 0x0FFFFF then
      Except.error ("the h20 should not exceed 0x0FFFFF. tag: " ++ w.Tag)
    else Except.ok ()

/-- WithSection: the Go function panics unless the section is in [1, 15];
the panic is modelled as none, a valid section yields the option function. -/
def WithSection (s : Nat) : Option (WUID → WUID) :=
  if s = 0 ∨ 16 ≤ s then none
  else some (fun w => { w with Section := s })

/-- Applies possibly-panicking options in order; a panic aborts construction. -/
def applyOpts (w : WUID) : List (Option (WUID → WUID)) → Option WUID
  | [] => some w
  | none :: _ => none
  | some f :: rest => applyOpts (f w) rest

/-- Construction through possibly-panicking options: none models the Go panic
escaping before any identifier is issued. -/
def NewWUIDChecked (tag : String) (logger : Bool)
    (opts : List (Option (WUID → WUID))) : Option WUID :=
  applyOpts { Section := 0, N := 0, Tag := tag, Logger := logger } opts

/-- Outcome of one invocation of the renewal callback. -/
inductive RenewOutcome where
  | ok : RenewOutcome
  | err : String → RenewOutcome
  | panics : String → RenewOutcome

/-- A message sent to the Logger. -/
inductive LogMsg where
  | info : String → LogMsg
  | warn : String → LogMsg

/-- The body of the goroutine dispatched by Next: the deferred recover turns a
panic into a Warn (when a logger is configured); otherwise a non-nil error
logs a Warn with the error detail and success logs an Info; with no logger
configured nothing is logged. Nothing escapes the goroutine. -/
def renewRun (logger : Bool) (tag : String) : RenewOutcome → List LogMsg
  | RenewOutcome.panics r =>
    if logger then [LogMsg.warn ("[wuid] panic. tag: " ++ tag ++ ", reason: " ++ r)]
    else []
  | RenewOutcome.err e =>
    if logger then
      [LogMsg.warn ("[wuid] renew failed. tag: " ++ tag ++ ", reason: " ++ e)]
    else []
  | RenewOutcome.ok =>
    if logger then [LogMsg.info ("[wuid] renew succeeded. tag: " ++ tag)]
    else []

/-- Next together with the effect of the dispatched goroutine, given the
outcome of the renewal callback: the new state, the returned value, and the
log messages produced. -/
def NextWithRenew (w : WUID) (o : RenewOutcome) : WUID × Nat × List LogMsg :=
  let r := Next w
  (r.1, r.2.1, if r.2.2 then renewRun w.Logger w.Tag o else [])

/-- One transition of the generator: a Next call, or an install of a validated
epoch h combined with an initial counter c (the renewal callback contract). -/
inductive Step : WUID → WUID → Prop where
  | next (w : WUID) : Step w (Next w).1
  | install (w : WUID) (h c : Nat) :
      VerifyH24 w h = Except.ok () → c < 2 ^ 40 → Step w (Reset w (h <<< 40 ||| c))

/-- States reachable from a start state by Next calls and validated installs. -/
def Reachable (w0 w : WUID) : Prop := Relation.ReflTransGen Step w0 w

/-- Shifting right distributes over bitwise or. -/
lemma lor_shiftRight (a b k : Nat) : (a ||| b) >>> k = a >>> k ||| b >>> k :=
  Nat.eq_of_testBit_eq fun i => by
    simp [Nat.testBit_lor, Nat.testBit_shiftRight]

/-- Reduction modulo a power of two distributes over bitwise or. -/
lemma lor_mod_two_pow (a b k : Nat) :
    (a ||| b) % 2 ^ k = a % 2 ^ k ||| b % 2 ^ k :=
  Nat.eq_of_testBit_eq fun i => by
    simp [Nat.testBit_lor, Nat.testBit_mod_two_pow, Bool.and_or_distrib_left]

/-- A shifted value or-ed with a small value is their sum. -/
lemma shiftLeft_lor_eq_add (a b k : Nat) (hb : b < 2 ^ k) :
    a <<< k ||| b = a * 2 ^ k + b := by
  have h1 : (a <<< k ||| b) >>> k = a := by
    rw [lor_shiftRight, Nat.shiftLeft_eq, Nat.shiftRight_eq_div_pow,
      Nat.shiftRight_eq_div_pow, Nat.mul_div_cancel _ (Nat.pos_pow_of_pos k (by norm_num)),
      Nat.div_eq_of_lt hb, Nat.or_zero]
  have h2 : (a <<< k ||| b) % 2 ^ k = b := by
    rw [lor_mod_two_pow, Nat.shiftLeft_eq, Nat.mul_mod_left,
      Nat.mod_eq_of_lt hb, Nat.zero_or]
  have h3 := Nat.div_add_mod (a <<< k ||| b) (2 ^ k)
  rw [← Nat.shiftRight_eq_div_pow, h1, h2, Nat.mul_comm] at h3
  omega

/-- Characterization of the success branch of VerifyH24. -/
lemma VerifyH24_ok_iff (w : WUID) (h24 : Nat) :
    VerifyH24 w h24 = Except.ok () ↔
      h24 ≠ 0 ∧ (w.Section = 0 → h24 ≤ 0xFFFFFF) ∧ (w.Section ≠ 0 → h24 ≤ 0xFFFFF) := by
  unfold VerifyH24
  split_ifs with h1 h2 h3 h4 <;> simp_all

/-- Characterization of the error branch of VerifyH24. -/
lemma VerifyH24_error_iff (w : WUID) (h24 : Nat) :
    (∃ e, VerifyH24 w h24 = Except.error e) ↔
      h24 = 0 ∨ (w.Section = 0 ∧ 0xFFFFFF < h24) ∨ (w.Section ≠ 0 ∧ 0xFFFFF < h24) := by
  unfold VerifyH24
  split_ifs with h1 h2 h3 h4 <;> simp_all

/-- C3: VerifyH24(h24) returns an error if and only if h24 = 0, or
h24 > 0xFFFFFF when the generator is unsharded (Section = 0), or
h24 > 0x0FFFFF when the generator is sharded (Section ≠ 0); for every
in-range non-zero h24 it returns success (and, being a total function,
it never panics). -/
theorem C3_verifyH24_error_iff (w : WUID) (h24 : Nat) :
    ((∃ e, VerifyH24 w h24 = Except.error e) ↔
      h24 = 0 ∨ (w.Section = 0 ∧ 0xFFFFFF < h24) ∨ (w.Section ≠ 0 ∧ 0xFFFFF < h24)) ∧
    (VerifyH24 w h24 = Except.ok () ↔
      ¬(h24 = 0 ∨ (w.Section = 0 ∧ 0xFFFFFF < h24) ∨ (w.Section ≠ 0 ∧ 0xFFFFF < h24))) := by
  refine ⟨VerifyH24_error_iff w h24, ?_⟩
  rw [VerifyH24_ok_iff]
  constructor
  · rintro ⟨hz, hu, hs⟩
    rcases Nat.eq_zero_or_pos w.Section with h0 | h0
    · have := hu h0
      simp [h0, hz]
      omega
    · have hne : w.Section ≠ 0 := by omega
      have := hs hne
      simp [hne, hz]
      omega
  · intro hcon
    push_neg at hcon
    obtain ⟨hz, hu, hs⟩ := hcon
    exact ⟨hz, fun h0 => (hu h0), fun hne => (hs hne)⟩

/-- A sample unsharded generator used by witnesses. -/
def wZero : WUID := { Section := 0, N := 0, Tag := "w", Logger := false }

/-- Witness for C3: VerifyH24 errors on input 0 for the sample generator. -/
theorem C3_witness : ∃ e, VerifyH24 wZero 0 = Except.error e :=
  (C3_verifyH24_error_iff wZero 0).1.mpr (Or.inl rfl)

/-- The low-60-bit mask is 2^60 - 1, so and-ing with it reduces mod 2^60. -/
lemma and_low60 (n : Nat) : n &&& 0x0FFFFFFFFFFFFFFF = n % 2 ^ 60 := by
  have h : (0x0FFFFFFFFFFFFFFF : Nat) = 2 ^ 60 - 1 := by norm_num
  rw [h, Nat.and_pow_two_sub_one_eq_mod]

/-- The stored value of a sharded Reset, as plain arithmetic. -/
lemma Reset_sharded_N (w : WUID) (n : Nat) (hs0 : w.Section ≠ 0)
    (hs15 : w.Section ≤ 15) :
    (Reset w n).N = w.Section * 2 ^ 60 + n % 2 ^ 60 := by
  have hshift : (w.Section <<< 60) % U64 = w.Section <<< 60 := by
    apply Nat.mod_eq_of_lt
    rw [Nat.shiftLeft_eq]
    calc w.Section * 2 ^ 60 ≤ 15 * 2 ^ 60 := Nat.mul_le_mul_right _ hs15
      _ < 2 ^ 64 := by norm_num
  have hlt : n % 2 ^ 60 < 2 ^ 60 := Nat.mod_lt _ (by norm_num)
  simp only [Reset, if_neg hs0]
  rw [hshift, and_low60, Nat.lor_comm, shiftLeft_lor_eq_add _ _ 60 hlt]

/-- C4: Reset(n) on an unsharded generator stores n verbatim; on a sharded
generator with shard in [1,15] it stores (n & 0x0FFFFFFFFFFFFFFF) | (shard << 60),
whose top 4 bits equal the shard regardless of the top 4 bits of n and whose
remaining 60 bits equal the low 60 bits of n. -/
theorem C4_reset_semantics (w : WUID) (n : Nat) (hn : n < U64) :
    (w.Section = 0 → (Reset w n).N = n) ∧
    (1 ≤ w.Section → w.Section ≤ 15 →
      (Reset w n).N = (n &&& 0x0FFFFFFFFFFFFFFF) ||| (w.Section <<< 60) ∧
      (Reset w n).N >>> 60 = w.Section ∧
      (Reset w n).N % 2 ^ 60 = n % 2 ^ 60) := by
  constructor
  · intro h0
    simp [Reset, h0]
  · intro h1 h15
    have hs0 : w.Section ≠ 0 := by omega
    have hN := Reset_sharded_N w n hs0 h15
    have hlt : n % 2 ^ 60 < 2 ^ 60 := Nat.mod_lt _ (by norm_num)
    refine ⟨?_, ?_, ?_⟩
    · rw [hN, and_low60, Nat.lor_comm, shiftLeft_lor_eq_add _ _ 60 hlt]
    · rw [hN, Nat.shiftRight_eq_div_pow, Nat.mul_comm,
        Nat.mul_add_div (by norm_num), Nat.div_eq_of_lt hlt, Nat.add_zero]
    · rw [hN, Nat.mul_comm, Nat.mul_add_mod]
      simp

/-- A sample sharded generator (shard 5) used by witnesses. -/
def wFive : WUID := { Section := 5, N := 0, Tag := "w", Logger := false }

/-- Witness for C4: Reset on shard 5 at a concrete n with high bits set. -/
theorem C4_witness :
    (Reset wFive 0xF123456789ABCDEF).N >>> 60 = 5 ∧
    (Reset wFive 0xF123456789ABCDEF).N % 2 ^ 60 = 0xF123456789ABCDEF % 2 ^ 60 := by
  have h := C4_reset_semantics wFive 0xF123456789ABCDEF (by norm_num [U64])
  exact ⟨(h.2 (by norm_num [wFive]) (by norm_num [wFive])).2.1,
    (h.2 (by norm_num [wFive]) (by norm_num [wFive])).2.2⟩

/-- The i-th of k successive Next calls returns (initial + 1 + i) mod 2^64. -/
lemma nextList_eq (w : WUID) (k : Nat) :
    nextList w k = (List.range k).map (fun i => (w.N + 1 + i) % U64) := by
  induction k generalizing w with
  | zero => simp [nextList]
  | succ k ih =>
    simp only [nextList, Next]
    rw [ih, List.range_succ_eq_map, List.map_cons, List.map_map]
    simp only [List.cons.injEq]
    refine ⟨by simp [nextVal], ?_⟩
    refine List.map_congr_left fun i _ => ?_
    simp only [Function.comp_apply, nextVal]
    rw [Nat.add_assoc, Nat.mod_add_mod]
    congr 1
    omega

/-- Successive Next return values are pairwise distinct while k ≤ 2^64. -/
lemma nextList_nodup (w : WUID) (k : Nat) (hk : k ≤ U64) :
    (nextList w k).Nodup := by
  rw [nextList_eq]
  refine List.Nodup.map_on ?_ (List.nodup_range k)
  intro i hi j hj hf
  simp only [List.mem_range] at hi hj
  have hU : U64 = 18446744073709551616 := by norm_num [U64]
  rw [hU] at hf
  rw [hU] at hk
  omega

/-- C1: a call to Next stores value + 1 (mod 2^64) into the value field and
returns that stored value; k consecutive Next calls starting from value =
initial return (initial + 1) mod 2^64, ..., (initial + k) mod 2^64 in order,
with no duplicates and no gaps (duplicate-freeness requires k ≤ 2^64, the
size of the value space). -/
theorem C1_next_sequence (w : WUID) (k : Nat) :
    ((Next w).1.N = (w.N + 1) % U64 ∧ (Next w).2.1 = (Next w).1.N) ∧
    nextList w k = (List.range k).map (fun i => (w.N + 1 + i) % U64) ∧
    (k ≤ U64 → (nextList w k).Nodup) :=
  ⟨⟨rfl, rfl⟩, nextList_eq w k, fun hk => nextList_nodup w k hk⟩

/-- Witness for C1: three Next calls from a fresh generator return 1, 2, 3. -/
theorem C1_witness : nextList wZero 3 = [1, 2, 3] ∧ (nextList wZero 3).Nodup := by
  have h := C1_next_sequence wZero 3
  refine ⟨?_, h.2.2 (by norm_num [U64])⟩
  rw [h.2.1]
  decide

/-- CriticalValue evaluates to 879609302220. -/
lemma CriticalValue_eq : CriticalValue = 879609302220 := by decide

/-- C2: Next dispatches a renewal attempt exactly when, for the incremented
value x, both (x & 0xFFFFFFFFFF) >= CriticalValue and (x & RenewInterval) = 0
hold, with CriticalValue = floor(2^40 * 0.8) and RenewInterval = 0x01FFFFFFFF;
when either condition fails no renewal is dispatched. -/
theorem C2_renew_trigger (w : WUID) :
    ((Next w).2.2 = true ↔
      (Next w).2.1 &&& 0xFFFFFFFFFF ≥ CriticalValue ∧
        (Next w).2.1 &&& RenewInterval = 0) ∧
    CriticalValue = Nat.floor ((2 ^ 40 : ℚ) * 0.8) ∧
    RenewInterval = 0x01FFFFFFFF := by
  refine ⟨?_, ?_, rfl⟩
  · simp [Next, Bool.and_eq_true, decide_eq_true_eq]
  · have hfl : ⌊((2 : ℚ) ^ 40 * 0.8)⌋₊ = 879609302220 := by
      rw [Nat.floor_eq_iff (by positivity)]
      norm_num
    rw [CriticalValue_eq, hfl]

/-- Witness for C2: the renewal mask constant as used by Next. -/
theorem C2_witness : RenewInterval = 0x01FFFFFFFF :=
  (C2_renew_trigger wZero).2.2

/-- C5: the shard option rejects 0 and every value ≥ 16, aborting construction
before any identifier is issued; every section in [1, 15] is accepted and
stored unchanged in the Section field (with the value still 0, pre-issuance). -/
theorem C5_withSection_validation (s : Nat) (tag : String) (lg : Bool) :
    (s = 0 ∨ 16 ≤ s →
      WithSection s = none ∧ NewWUIDChecked tag lg [WithSection s] = none) ∧
    (1 ≤ s → s ≤ 15 →
      ∃ w, NewWUIDChecked tag lg [WithSection s] = some w ∧
        w.Section = s ∧ w.N = 0) := by
  constructor
  · intro hbad
    have hws : WithSection s = none := by
      unfold WithSection
      rw [if_pos hbad]
    exact ⟨hws, by simp [NewWUIDChecked, applyOpts, hws]⟩
  · intro h1 h15
    have hcond : ¬(s = 0 ∨ 16 ≤ s) := by omega
    have hws : WithSection s = some (fun w => { w with Section := s }) := by
      unfold WithSection
      rw [if_neg hcond]
    exact ⟨{ Section := s, N := 0, Tag := tag, Logger := lg },
      by simp [NewWUIDChecked, applyOpts, hws], rfl, rfl⟩

/-- Witness for C5: section 16 aborts, section 5 is accepted and stored. -/
theorem C5_witness :
    WithSection 16 = none ∧
    (∃ w, NewWUIDChecked "w" false [WithSection 5] = some w ∧
      w.Section = 5 ∧ w.N = 0) :=
  ⟨((C5_withSection_validation 16 "w" false).1 (Or.inr (by norm_num))).1,
    (C5_withSection_validation 5 "w" false).2 (by norm_num) (by norm_num)⟩

/-- A generator whose low 40 bits are all ones: the next increment carries. -/
def wCarry : WUID := { Section := 0, N := 0x1FFFFFFFFFF, Tag := "w", Logger := false }

/-- Counterexample to C6: when the low 40 bits of value are all ones, the
64-bit increment of Next carries into bit 40 and changes the high bits
(here from 1 to 2), so Next is not the identity on the bits above bit 39. -/
theorem C6_counterexample : (Next wCarry).1.N >>> 40 ≠ wCarry.N >>> 40 := by
  decide

/-- C6 (amended): whenever the low 40 bits of the pre-call value are not all
ones, a call to Next leaves the bits of value above the low 40 bits unchanged. -/
theorem C6_next_preserves_high_bits (w : WUID) (hlt : w.N < U64)
    (hlow : w.N &&& 0xFFFFFFFFFF ≠ 0xFFFFFFFFFF) :
    (Next w).1.N >>> 40 = w.N >>> 40 := by
  have hm : w.N &&& 0xFFFFFFFFFF = w.N % 2 ^ 40 := by
    have h : (0xFFFFFFFFFF : Nat) = 2 ^ 40 - 1 := by norm_num
    rw [h, Nat.and_pow_two_sub_one_eq_mod]
  rw [hm] at hlow
  simp only [Next, nextVal]
  rw [Nat.shiftRight_eq_div_pow, Nat.shiftRight_eq_div_pow]
  have hU : U64 = 18446744073709551616 := by norm_num [U64]
  have h40 : (2 : Nat) ^ 40 = 1099511627776 := by norm_num
  rw [hU, h40]
  rw [h40] at hlow
  rw [hU] at hlt
  omega

/-- A generator far from the carry boundary, used by witnesses. -/
def wLow : WUID := { Section := 0, N := 5, Tag := "w", Logger := false }

/-- Witness for C6 (amended): at value 5 the high bits are untouched. -/
theorem C6_witness : (Next wLow).1.N >>> 40 = wLow.N >>> 40 :=
  C6_next_preserves_high_bits wLow (by decide) (by decide)

/-- Construction options built by WithSection never touch the value field. -/
lemma foldl_section_only (opts : List (WUID → WUID)) :
    ∀ w : WUID, (∀ o ∈ opts, ∃ s, WithSection s = some o) →
      (opts.foldl (fun w opt => opt w) w).N = w.N := by
  induction opts with
  | nil =>
    intro w _
    rfl
  | cons o rest ih =>
    intro w hall
    simp only [List.foldl_cons]
    have hN : (o w).N = w.N := by
      obtain ⟨s, hs⟩ := hall o (List.mem_cons_self o rest)
      unfold WithSection at hs
      split_ifs at hs
      have h := Option.some.inj hs
      subst h
      rfl
    rw [ih (o w) fun o' ho' => hall o' (List.mem_cons_of_mem _ ho'), hN]

/-- C10: NewWUID leaves the value at its zero initialization and no option
built by WithSection modifies it, so the first Next call on a freshly
constructed generator returns 1, whose epoch bits (above bit 39) are zero. -/
theorem C10_fresh_first_id (tag : String) (lg : Bool) (opts : List (WUID → WUID))
    (hopts : ∀ o ∈ opts, ∃ s, WithSection s = some o) :
    (NewWUID tag lg opts).N = 0 ∧
    (Next (NewWUID tag lg opts)).2.1 = 1 ∧
    (Next (NewWUID tag lg opts)).2.1 >>> 40 = 0 := by
  have hN : (NewWUID tag lg opts).N = 0 := by
    unfold NewWUID
    rw [foldl_section_only opts _ hopts]
  refine ⟨hN, ?_, ?_⟩
  · simp only [Next, nextVal, hN]
    norm_num [U64]
  · simp only [Next, nextVal, hN]
    rw [show (0 + 1) % U64 = 1 by norm_num [U64]]
    decide

/-- Witness for C10: a generator built with no options issues 1 first. -/
theorem C10_witness :
    (NewWUID "w" false []).N = 0 ∧
    (Next (NewWUID "w" false [])).2.1 = 1 ∧
    (Next (NewWUID "w" false [])).2.1 >>> 40 = 0 :=
  C10_fresh_first_id "w" false [] (by simp)

/-- Counterexample to C7: RenewInterval = 0x01FFFFFFFF is 2^33 - 1, a 33-bit
mask, not the 37-bit mask 2^37 - 1, and its window RenewInterval + 1 = 2^33
is about 8.6 billion, well below ~34 billion. -/
theorem C7_counterexample :
    RenewInterval = 2 ^ 33 - 1 ∧ RenewInterval ≠ 2 ^ 37 - 1 ∧
    RenewInterval + 1 < 34000000000 := by
  decide

/-- C7 (amended): RenewInterval = 0x01FFFFFFFF is a 33-bit mask, so the
throttle condition x & RenewInterval = 0 holds for exactly one x in every
window of RenewInterval + 1 = 2^33 consecutive values, i.e. roughly one
renewal attempt per ~8.6 billion issued IDs. -/
theorem C7_renew_mask_window :
    RenewInterval = 2 ^ 33 - 1 ∧ RenewInterval + 1 = 2 ^ 33 ∧
    ∀ a : Nat, ∃! x : Nat,
      (a ≤ x ∧ x < a + (RenewInterval + 1)) ∧ x &&& RenewInterval = 0 := by
  have hRI : RenewInterval = 2 ^ 33 - 1 := by decide
  have hRI1 : RenewInterval + 1 = 2 ^ 33 := by decide
  have h33 : (2 : Nat) ^ 33 = 8589934592 := by norm_num
  refine ⟨hRI, hRI1, ?_⟩
  intro a
  have hmod : ∀ x : Nat, x &&& RenewInterval = x % 2 ^ 33 := fun x => by
    rw [hRI, Nat.and_pow_two_sub_one_eq_mod]
  refine ⟨2 ^ 33 * ((a + 2 ^ 33 - 1) / 2 ^ 33), ⟨⟨?_, ?_⟩, ?_⟩, ?_⟩
  · rw [h33]
    omega
  · rw [hRI1, h33]
    omega
  · rw [hmod]
    exact Nat.mul_mod_right _ _
  · rintro y ⟨⟨hy1, hy2⟩, hy3⟩
    rw [hmod] at hy3
    rw [hRI1] at hy2
    rw [h33] at hy2 hy3 ⊢
    omega

/-- Witness for C7 (amended): exactly one trigger point in the first window. -/
theorem C7_witness :
    ∃! x : Nat, (0 ≤ x ∧ x < 0 + (RenewInterval + 1)) ∧ x &&& RenewInterval = 0 :=
  C7_renew_mask_window.2.2 0

/-- C9: with a logger configured, a failing renewal callback logs exactly one
Warn carrying the error detail, a successful one logs exactly one Info, and a
panicking one is recovered and logs exactly one Warn; with no logger
configured nothing is logged; in all cases the state and the value returned
by Next are those of Next alone, so nothing is surfaced to its caller. -/
theorem C9_renewal_logging (w : WUID) (o : RenewOutcome) (e r : String) :
    ((NextWithRenew w o).1 = (Next w).1 ∧ (NextWithRenew w o).2.1 = (Next w).2.1) ∧
    (w.Logger = true →
      renewRun w.Logger w.Tag (RenewOutcome.err e) =
        [LogMsg.warn ("[wuid] renew failed. tag: " ++ w.Tag ++ ", reason: " ++ e)] ∧
      renewRun w.Logger w.Tag RenewOutcome.ok =
        [LogMsg.info ("[wuid] renew succeeded. tag: " ++ w.Tag)] ∧
      renewRun w.Logger w.Tag (RenewOutcome.panics r) =
        [LogMsg.warn ("[wuid] panic. tag: " ++ w.Tag ++ ", reason: " ++ r)]) ∧
    (w.Logger = false → renewRun w.Logger w.Tag o = []) := by
  refine ⟨⟨rfl, rfl⟩, ?_, ?_⟩
  · intro hl
    simp [renewRun, hl]
  · intro hl
    cases o <;> simp [renewRun, hl]

/-- A generator with a logger configured, used by witnesses. -/
def wLog : WUID := { Section := 0, N := 0, Tag := "t", Logger := true }

/-- Witness for C9: a concrete error is logged as one Warn with its detail,
and with no logger a successful renewal logs nothing. -/
theorem C9_witness :
    renewRun wLog.Logger wLog.Tag (RenewOutcome.err "boom") =
      [LogMsg.warn ("[wuid] renew failed. tag: " ++ wLog.Tag ++ ", reason: " ++ "boom")] ∧
    renewRun wZero.Logger wZero.Tag RenewOutcome.ok = [] :=
  ⟨((C9_renewal_logging wLog (RenewOutcome.err "boom") "boom" "r").2.1 rfl).1,
    (C9_renewal_logging wZero RenewOutcome.ok "e" "r").2.2 rfl⟩

/-- The value after k Next calls is the start value plus k, absent wraparound. -/
lemma nextk_N (w : WUID) (k : Nat) (hk : w.N + k < U64) :
    (nextk w k).N = w.N + k := by
  induction k with
  | zero => rfl
  | succ k ih =>
    have hN := ih (by omega)
    show (Next (nextk w k)).1.N = w.N + (k + 1)
    simp only [Next, nextVal, hN]
    rw [Nat.mod_eq_of_lt (by omega)]
    omega

/-- Reachability is preserved by any number of Next calls. -/
lemma reachable_nextk (w0 w : WUID) (hw : Reachable w0 w) (k : Nat) :
    Reachable w0 (nextk w k) := by
  induction k with
  | zero => exact hw
  | succ k ih => exact Relation.ReflTransGen.tail ih (Step.next (nextk w k))

/-- Installing epoch h with counter c on an unsharded generator stores
h * 2^40 + c. -/
lemma install_unsharded (w : WUID) (h c : Nat) (hs : w.Section = 0)
    (hc : c < 2 ^ 40) :
    (Reset w (h <<< 40 ||| c)).N = h * 2 ^ 40 + c := by
  simp only [Reset, if_pos hs]
  exact shiftLeft_lor_eq_add h c 40 hc

/-- Installing epoch h with counter c on a sharded generator stores
Section * 2^60 + h * 2^40 + c. -/
lemma install_sharded (w : WUID) (h c : Nat) (hs : w.Section ≠ 0)
    (h15 : w.Section ≤ 15) (hh : h ≤ 0xFFFFF) (hc : c < 2 ^ 40) :
    (Reset w (h <<< 40 ||| c)).N = w.Section * 2 ^ 60 + h * 2 ^ 40 + c := by
  rw [Reset_sharded_N w _ hs h15, shiftLeft_lor_eq_add h c 40 hc]
  have e2 : h * 2 ^ 40 ≤ 0xFFFFF * 2 ^ 40 := Nat.mul_le_mul_right _ hh
  have p40 : (2 : Nat) ^ 40 = 1099511627776 := by norm_num
  have p60 : (2 : Nat) ^ 60 = 1152921504606846976 := by norm_num
  rw [p40, p60] at *
  rw [Nat.mod_eq_of_lt (by omega)]
  omega

/-- Counterexample to C8, refuting the claimed invariant at concrete reachable
states, one for each restriction the amendment introduces:
(i) the freshly constructed state is reachable by the empty call sequence and
its value is 0, so its epoch bits are zero, not a non-zero epoch;
(ii) after a validated install of epoch 0xFFFFFF with initial counter
0xFFFFFFFFFF, a single Next call wraps the value to 0, so even a state whose
history contains a validated install has zero epoch bits once the low 40-bit
counter overflows;
(iii) on a sharded generator (shard 5) a validated install of epoch 1 places
the shard tag in the top 4 bits (positions 60..63), while the 4 bits
immediately below the 20 epoch bits (positions 40..43) hold the counter
value 0, not the shard tag — the layout is shard above epoch, not below. -/
theorem C8_counterexample :
    (Reachable (NewWUID "w" false []) (NewWUID "w" false []) ∧
      (NewWUID "w" false []).N >>> 40 = 0) ∧
    (Reachable (NewWUID "w" false [])
        (Next (Reset (NewWUID "w" false []) (0xFFFFFF <<< 40 ||| 0xFFFFFFFFFF))).1 ∧
      (Next (Reset (NewWUID "w" false []) (0xFFFFFF <<< 40 ||| 0xFFFFFFFFFF))).1.N >>> 40
        = 0) ∧
    (Reachable wFive (Reset wFive (1 <<< 40 ||| 0)) ∧
      (Reset wFive (1 <<< 40 ||| 0)).N >>> 60 = wFive.Section ∧
      ((Reset wFive (1 <<< 40 ||| 0)).N >>> 40) &&& 0xF ≠ wFive.Section) := by
  refine ⟨⟨Relation.ReflTransGen.refl, by decide⟩, ⟨?_, by decide⟩,
    ⟨?_, by decide, by decide⟩⟩
  · exact Relation.ReflTransGen.tail
      (Relation.ReflTransGen.tail Relation.ReflTransGen.refl
        (Step.install _ 0xFFFFFF 0xFFFFFFFFFF rfl (by decide)))
      (Step.next _)
  · exact Relation.ReflTransGen.tail Relation.ReflTransGen.refl
      (Step.install _ 1 0 rfl (by decide))

/-- C8 (amended): in every state reached by a validated epoch install followed
by Next calls that keep the low 40-bit counter from overflowing, the value's
high bits encode the installed non-zero epoch — the 24 bits above bit 39 when
unsharded, and when sharded the 20 bits in positions 40..59 with the 4-bit
shard tag in the bits immediately above the epoch (positions 60..63). -/
theorem C8_high_bits_after_install (w0 w1 : WUID) (h c k : Nat)
    (hreach : Reachable w0 w1) (h15 : w1.Section ≤ 15)
    (hver : VerifyH24 w1 h = Except.ok ()) (hc : c < 2 ^ 40)
    (hck : c + k < 2 ^ 40) :
    Reachable w0 (nextk (Reset w1 (h <<< 40 ||| c)) k) ∧
    h ≠ 0 ∧
    (w1.Section = 0 →
      (nextk (Reset w1 (h <<< 40 ||| c)) k).N >>> 40 = h ∧ h ≤ 0xFFFFFF) ∧
    (w1.Section ≠ 0 →
      (nextk (Reset w1 (h <<< 40 ||| c)) k).N >>> 60 = w1.Section ∧
      ((nextk (Reset w1 (h <<< 40 ||| c)) k).N >>> 40) &&& 0xFFFFF = h ∧
      h ≤ 0xFFFFF) := by
  obtain ⟨hz, hu, hsh⟩ := (VerifyH24_ok_iff w1 h).1 hver
  have hreach2 : Reachable w0 (Reset w1 (h <<< 40 ||| c)) :=
    Relation.ReflTransGen.tail hreach (Step.install w1 h c hver hc)
  have p40 : (2 : Nat) ^ 40 = 1099511627776 := by norm_num
  have p60 : (2 : Nat) ^ 60 = 1152921504606846976 := by norm_num
  have pU : U64 = 18446744073709551616 := by norm_num [U64]
  refine ⟨reachable_nextk _ _ hreach2 k, hz, ?_, ?_⟩
  · intro hs0
    have hh24 := hu hs0
    have hN : (Reset w1 (h <<< 40 ||| c)).N = h * 2 ^ 40 + c :=
      install_unsharded w1 h c hs0 hc
    have hfit : (Reset w1 (h <<< 40 ||| c)).N + k < U64 := by
      rw [hN, p40, pU]
      rw [p40] at hck
      omega
    rw [Nat.shiftRight_eq_div_pow, nextk_N _ k hfit, hN]
    refine ⟨?_, hh24⟩
    rw [p40]
    rw [p40] at hck
    omega
  · intro hsne
    have hh20 := hsh hsne
    have hN : (Reset w1 (h <<< 40 ||| c)).N =
        w1.Section * 2 ^ 60 + h * 2 ^ 40 + c :=
      install_sharded w1 h c hsne h15 hh20 hc
    have hfit : (Reset w1 (h <<< 40 ||| c)).N + k < U64 := by
      rw [hN, p40, p60, pU]
      rw [p40] at hck
      omega
    have hand : ∀ x : Nat, x &&& 0xFFFFF = x % 2 ^ 20 := fun x => by
      have e : (0xFFFFF : Nat) = 2 ^ 20 - 1 := by norm_num
      rw [e, Nat.and_pow_two_sub_one_eq_mod]
    have p20 : (2 : Nat) ^ 20 = 1048576 := by norm_num
    refine ⟨?_, ?_, hh20⟩
    · rw [Nat.shiftRight_eq_div_pow, nextk_N _ k hfit, hN, p40, p60]
      rw [p40] at hck
      omega
    · rw [Nat.shiftRight_eq_div_pow, nextk_N _ k hfit, hN, hand, p40, p60, p20]
      rw [p40] at hck
      omega

/-- Witness for C8 (amended): installing epoch 1 on a fresh unsharded
generator puts 1 in the bits above bit 39. -/
theorem C8_witness :
    (nextk (Reset (NewWUID "w" false []) (1 <<< 40 ||| 0)) 0).N >>> 40 = 1 :=
  ((C8_high_bits_after_install (NewWUID "w" false []) (NewWUID "w" false [])
    1 0 0 Relation.ReflTransGen.refl (by decide) rfl (by decide)
    (by decide)).2.2.1 rfl).1

end internal
